import Mathlib

/-!
Verification of the ME7 ROM structure-recovery tools.

The Python sources are shallowly embedded: byte buffers are `List Nat`
(each entry a byte value 0–255), machine words are `Nat`, classifier values
are `ℚ`, fallible operations return `Option`/`Except`, and printing-only
code is dropped.  Every definition is translated from the corresponding
Python function; the definitions whose doc comment starts with
`Modelled from the spec:` instead follow the specification's words and
exist only to be compared against the code.
-/

/-- Linear scan: first position `i` with `start ≤ i < start + k` such that
`p i = true`, mirroring the Python loops
`for i in range(start, end): if match(i): return i` (`k` is the number of
remaining positions, `end - start`). -/
def scanFrom (p : Nat → Bool) : Nat → Nat → Option Nat
  | _, 0 => none
  | start, k+1 => if p start then some start else scanFrom p (start+1) k

/-- The specification-level match predicate: every significant byte of the
needle (mask byte 0xFF) equals the corresponding buffer byte; wildcard
positions (mask byte 0) are ignored. -/
def sigMatch (data needle mask : List Nat) (i : Nat) : Prop :=
  ∀ j, j < needle.length → mask.getD j 0 = 255 → needle.getD j 0 = data.getD (i + j) 0

instance (data needle mask : List Nat) (i : Nat) : Decidable (sigMatch data needle mask i) := by
  unfold sigMatch; infer_instance

namespace RomScanner

/-- Inner loop of `ME7Scanner.search_pattern` (romscanner.py): a position
matches when no byte whose mask entry equals `MASK = 0xFF` differs from the
buffer byte. -/
def matchAt (data needle mask : List Nat) (i : Nat) : Bool :=
  (List.range needle.length).all fun j =>
    !(mask.getD j 0 == 255) || (needle.getD j 0 == data.getD (i + j) 0)

/-- `ME7Scanner.search_pattern` (romscanner.py): scans positions
`start_offset ≤ i < len(data) - len(needle)` (exclusive upper bound, as in
`range(start_offset, len(self.data) - needle_len)`) and returns the first
matching offset, or `none`. -/
def search_pattern (data needle mask : List Nat) (start : Nat) : Option Nat :=
  scanFrom (matchAt data needle mask) start (data.length - needle.length - start)

def SEGMENT_SIZE : Nat := 0x4000

def ROM_1MB_MASK : Nat := 0xF00000

/-- 32-bit complement `0xFF0FFFFF` of `0xF00000`; the operands of Python's
arbitrary-precision `phys_addr & ~ROM_1MB_MASK` are below `2^32` here, so
conjunction with the 32-bit complement is equivalent. -/
def NOT_ROM_1MB_MASK : Nat := 0xFF0FFFFF

/-- `get_word` (romscanner.py): `struct.unpack("<H", data[offset:offset+2])`;
`none` models the `struct.error` raised when fewer than two bytes remain
(inside `extract_map_data` it is caught by the surrounding `try/except`). -/
def get_word (data : List Nat) (offset : Nat) : Option Nat :=
  if data.length < offset + 2 then none
  else some (data.getD offset 0 + 256 * data.getD (offset + 1) 0)

/-- The address translation performed by `find_maps` (romscanner.py):
`phys_addr = seg_value * SEGMENT_SIZE + map_offset` followed by
`file_offset = phys_addr & ~ROM_1MB_MASK`.  It takes no ROM-size input. -/
def file_offset_of (seg off : Nat) : Nat :=
  (seg * SEGMENT_SIZE + off) &&& NOT_ROM_1MB_MASK

/-- `NEEDLE_PATTERNS['dpp_setup']` (romscanner.py): `mov DPPx, #imm16` for
x = 0..3; the immediate bytes are wildcards. -/
def dpp_needle : List Nat :=
  [0xE6, 0x00, 0, 0, 0xE6, 0x01, 0, 0, 0xE6, 0x02, 0, 0, 0xE6, 0x03, 0, 0]

def dpp_mask : List Nat :=
  [255, 255, 0, 0, 255, 255, 0, 0, 255, 255, 0, 0, 255, 255, 0, 0]

/-- `get_dpp_values` (romscanner.py): the four slots start as `None`; on a
match, slot `i` receives the little-endian word at `offset + 2 + 4*i`; when
the needle is absent only a warning is printed and the unset table is
returned. -/
def get_dpp_values (rom : List Nat) : Option Nat × Option Nat × Option Nat × Option Nat :=
  match search_pattern rom dpp_needle dpp_mask 0 with
  | none => (none, none, none, none)
  | some offset =>
      (get_word rom (offset + 2), get_word rom (offset + 6),
        get_word rom (offset + 10), get_word rom (offset + 14))

/-- The width fields of a `KNOWN_MAPS` entry (romscanner.py); the scaling
divisors only feed the floating-point display copies and are omitted. -/
structure MapDef where
  x_num_width : Nat
  y_num_width : Nat
  x_axis_width : Nat
  y_axis_width : Nat
  cell_width : Nat

/-- The width-dispatched read of `extract_map_data` (romscanner.py):
`data[o]` when the width is 1 (`none` models the `IndexError` past the end),
otherwise a little-endian word ("Assume 2 bytes (UWORD)") with `none`
modelling `struct.error` on a short slice. -/
def read_w (data : List Nat) (offset width : Nat) : Option Nat :=
  if width = 1 then (if offset < data.length then some (data.getD offset 0) else none)
  else get_word data offset

/-- The x dimension read by `extract_map_data` at `offset`; `none` is a
raised exception. -/
def x_size_of (data : List Nat) (md : MapDef) (offset : Nat) : Option Nat :=
  read_w data offset md.x_num_width

/-- The y dimension read by `extract_map_data`: 0 when `y_num_width = 0`
(1D map), otherwise the value at `offset + x_num_width`; `none` is a raised
exception. -/
def y_size_of (data : List Nat) (md : MapDef) (offset : Nat) : Option Nat :=
  if md.y_num_width = 0 then some 0
  else read_w data (offset + md.x_num_width) md.y_num_width

/-- A Python `for i in ...: ... append(f(i))` loop whose body may raise:
`none` aborts the whole computation (the exception propagates to
`extract_map_data`'s `try/except`). -/
def opt_map_indices {α : Type} (f : Nat → Option α) : List Nat → Option (List α)
  | [] => some []
  | i :: rest =>
    match f i with
    | none => none
    | some v =>
      match opt_map_indices f rest with
      | none => none
      | some vs => some (v :: vs)

/-- The outcomes of `extract_map_data` (romscanner.py): the three dicts with
an explicit `'error'` message, the generic error dict its `try/except`
builds from a raised exception (`exceptionErr`), and the full table dict
(raw data; the `_conv` copies are the same values divided by floating-point
factors). -/
inductive ExtractResult where
  | offsetOut : ExtractResult
  | yDimOut : ExtractResult
  | suspiciousDims (x_size y_size : Nat) : ExtractResult
  | exceptionErr : ExtractResult
  | table (x_size y_size : Nat) (x_axis_data y_axis_data : List Nat)
      (cell_data : List (List Nat)) : ExtractResult
deriving DecidableEq

/-- `extract_map_data` (romscanner.py): reads the dimensions (bounds-checked,
with an error dict on failure), rejects dimensions above 50 before reading
anything further, then reads x-axis, y-axis and cell data, appending 0 for
any element whose guarded read would exceed the buffer ("# Out of range").
The whole body runs inside `try/except`: a read that raises — `get_word` on
a short slice, possible only for a zero-width field whose position lands at
the buffer tail — yields the generic error dict, `exceptionErr`. -/
def extract_map_data (data : List Nat) (md : MapDef) (offset : Nat) : ExtractResult :=
  if data.length < offset + md.x_num_width then ExtractResult.offsetOut
  else
    match x_size_of data md offset with
    | none => ExtractResult.exceptionErr
    | some x_size =>
      if ¬ (md.y_num_width = 0) ∧ data.length < offset + md.x_num_width + md.y_num_width then
        ExtractResult.yDimOut
      else
        match y_size_of data md offset with
        | none => ExtractResult.exceptionErr
        | some y_size =>
          if 50 < x_size ∨ 50 < y_size then ExtractResult.suspiciousDims x_size y_size
          else
            let x_axis_start := offset + md.x_num_width + md.y_num_width
            match opt_map_indices (fun i =>
                if x_axis_start + i * md.x_axis_width + md.x_axis_width ≤ data.length
                then read_w data (x_axis_start + i * md.x_axis_width) md.x_axis_width
                else some 0) (List.range x_size) with
            | none => ExtractResult.exceptionErr
            | some x_axis_data =>
              let y_axis_start := x_axis_start + x_size * md.x_axis_width
              match (if 0 < y_size then
                  opt_map_indices (fun i =>
                    if y_axis_start + i * md.y_axis_width + md.y_axis_width ≤ data.length
                    then read_w data (y_axis_start + i * md.y_axis_width) md.y_axis_width
                    else some 0) (List.range y_size)
                else some []) with
              | none => ExtractResult.exceptionErr
              | some y_axis_data =>
                match (if 0 < y_size then
                    let cell_start := y_axis_start + y_size * md.y_axis_width
                    opt_map_indices (fun y => opt_map_indices (fun x =>
                      if cell_start + (y * x_size + x) * md.cell_width + md.cell_width ≤
                          data.length
                      then read_w data (cell_start + (y * x_size + x) * md.cell_width)
                        md.cell_width
                      else some 0) (List.range x_size)) (List.range y_size)
                  else
                    let cell_start := x_axis_start + x_size * md.x_axis_width
                    match opt_map_indices (fun x =>
                        if cell_start + x * md.cell_width + md.cell_width ≤ data.length
                        then read_w data (cell_start + x * md.cell_width) md.cell_width
                        else some 0) (List.range x_size) with
                    | none => none
                    | some row => some [row]) with
                | none => ExtractResult.exceptionErr
                | some cell_data =>
                  ExtractResult.table x_size y_size x_axis_data y_axis_data cell_data

end RomScanner

namespace Me7Map

/-- Inner loop of `search` (me7_map_scanner.py): a position matches when for
every needle byte with a non-zero mask entry, buffer and needle agree on the
masked bits: `(rom_data[i+j] & mask[j]) == (needle[j] & mask[j])`. -/
def matchAt (data needle mask : List Nat) (i : Nat) : Bool :=
  (List.range needle.length).all fun j =>
    (mask.getD j 0 == 0) ||
      ((data.getD (i + j) 0 &&& mask.getD j 0) == (needle.getD j 0 &&& mask.getD j 0))

/-- `search` (me7_map_scanner.py): `end = len(rom_data) - needle_len`, returns
`none` when `end <= start_offset`, otherwise scans `start_offset ≤ i < end`
and returns the first matching offset. -/
def search (data needle mask : List Nat) (start : Nat) : Option Nat :=
  if data.length - needle.length ≤ start then none
  else scanFrom (matchAt data needle mask) start (data.length - needle.length - start)

def SEGMENT_SIZE : Nat := 0x4000

def ROM_1MB_MASK : Nat := 0x100000

/-- 32-bit complement `0xFFEFFFFF` of `0x100000`; the operands of Python's
arbitrary-precision `physical_addr & ~ROM_1MB_MASK` are below `2^32` here,
so conjunction with the 32-bit complement is equivalent. -/
def NOT_ROM_1MB_MASK : Nat := 0xFFEFFFFF

/-- `calc_physical_address` (me7_map_scanner.py): returns
`(physical_addr, rom_offset)` with
`physical_addr = segment * SEGMENT_SIZE + offset` and
`rom_offset = physical_addr & ~ROM_1MB_MASK`.  It takes no ROM-size input. -/
def calc_physical_address (segment offset : Nat) : Nat × Nat :=
  (segment * SEGMENT_SIZE + offset, (segment * SEGMENT_SIZE + offset) &&& NOT_ROM_1MB_MASK)

/-- `is_valid_table_address` (me7_map_scanner.py): `0 <= addr < rom_size`. -/
def is_valid_table_address (addr rom_size : Nat) : Bool :=
  decide (addr < rom_size)

/-- `get16` (me7_map_scanner.py): little-endian 16-bit read, returning 0 when
fewer than two bytes remain. -/
def get16 (data : List Nat) (offset : Nat) : Nat :=
  if data.length < offset + 2 then 0
  else data.getD offset 0 + 256 * data.getD (offset + 1) 0

/-- `get32` (me7_map_scanner.py): little-endian 32-bit read, returning 0 when
fewer than four bytes remain. -/
def get32 (data : List Nat) (offset : Nat) : Nat :=
  if data.length < offset + 4 then 0
  else data.getD offset 0 + 256 * data.getD (offset + 1) 0 +
    65536 * data.getD (offset + 2) 0 + 16777216 * data.getD (offset + 3) 0

/-- `get_nwidth` (me7_map_scanner.py): width-dispatched read returning 0 for
an out-of-range offset or an unsupported width. -/
def get_nwidth (data : List Nat) (offset nwidth : Nat) : Nat :=
  if data.length ≤ offset then 0
  else if nwidth = 0 then 0
  else if nwidth = 1 then (if offset < data.length then data.getD offset 0 else 0)
  else if nwidth = 2 then get16 data offset
  else if nwidth = 4 then get32 data offset
  else 0

/-- `safe_read` (me7_map_scanner.py): returns the requested slice, or a
zero-filled block of the requested length when the read would leave the
buffer. -/
def safe_read (data : List Nat) (offset count : Nat) : List Nat :=
  if data.length < offset + count then List.replicate count 0
  else (data.drop offset).take count

/-- The DPP setup needle from `check_dppx` (me7_map_scanner.py):
`mov DPPx, #imm16` for x = 0..3; the immediate bytes are wildcards. -/
def dpp_needle : List Nat :=
  [0xE6, 0x00, 0, 0, 0xE6, 0x01, 0, 0, 0xE6, 0x02, 0, 0, 0xE6, 0x03, 0, 0]

def dpp_mask : List Nat :=
  [255, 255, 0, 0, 255, 255, 0, 0, 255, 255, 0, 0, 255, 255, 0, 0]

/-- `check_dppx` (me7_map_scanner.py): on a match, reads DPP0..DPP3 as
little-endian words at offsets +2, +6, +10, +14 from the match; when the
needle is absent it calls `sys.exit(1)`, modelled as `Except.error 1`. -/
def check_dppx (rom : List Nat) : Except Nat (Nat × Nat × Nat × Nat × Nat) :=
  match search rom dpp_needle dpp_mask 0 with
  | none => Except.error 1
  | some addr =>
      Except.ok (addr, get16 rom (addr + 2), get16 rom (addr + 6),
        get16 rom (addr + 10), get16 rom (addr + 14))

/-- The width fields of a `TableDef` (me7_map_scanner.py); the name,
description and conversion entries only feed the printed output. -/
structure TableDef where
  x_num_nwidth : Nat
  y_num_nwidth : Nat
  x_axis_nwidth : Nat
  y_axis_nwidth : Nat
  cell_nwidth : Nat

/-- `XXXX_table` (me7_map_scanner.py): default 2D table widths. -/
def XXXX_table : TableDef := ⟨1, 1, 1, 2, 2⟩

/-- `XXXXB_table` (me7_map_scanner.py): default 1D table widths. -/
def XXXXB_table : TableDef := ⟨1, 0, 1, 0, 1⟩

/-- Outcomes of the decode phase of `dump_table` (me7_map_scanner.py): the
early `return`s after each "out of range" warning, and the decoded view
(clamped dimensions plus the x-axis entries the table body prints). -/
inductive DumpResult where
  | addrOut : DumpResult
  | xNumOut : DumpResult
  | yNumOut : DumpResult
  | xAxisBeyond : DumpResult
  | yAxisBeyond : DumpResult
  | view (x_num y_num : Nat) (x_axis_vals : List Nat) : DumpResult
deriving DecidableEq

/-- The decode phase of `dump_table` (me7_map_scanner.py) with
`cell_table_override_adr = 0`: translates the address, validates it, reads
`x_num` and `y_num` with `get_nwidth`, replaces each by 20 when it exceeds
50, validates the axis extents, and reads the x-axis entries.  (The
subsequent cell rows print further `get_nwidth` reads; the cell-extent check
only warns — "Continue anyway".) -/
def dump_table_core (rom_data : List Nat) (table_addr segment : Nat) (td : TableDef) :
    DumpResult :=
  let map_table_adr := (calc_physical_address segment table_addr).2
  if is_valid_table_address map_table_adr rom_data.length then
    let table_start := map_table_adr
    if is_valid_table_address table_start rom_data.length then
      let x_num0 := get_nwidth rom_data table_start td.x_num_nwidth
      let x_num := if 50 < x_num0 then 20 else x_num0
      let y_num_data_start := table_start + td.x_num_nwidth
      if is_valid_table_address y_num_data_start rom_data.length then
        let y_num0 := get_nwidth rom_data y_num_data_start td.y_num_nwidth
        let y_num := if 50 < y_num0 then 20 else y_num0
        let x_axis_start := table_start + td.x_num_nwidth + td.y_num_nwidth
        if 0 < x_num ∧
            ¬ (is_valid_table_address (x_axis_start + x_num * td.x_axis_nwidth - 1)
              rom_data.length = true) then
          DumpResult.xAxisBeyond
        else
          let y_axis_start := x_axis_start + x_num * td.x_axis_nwidth
          if 0 < y_num ∧
              ¬ (is_valid_table_address (y_axis_start + y_num * td.y_axis_nwidth - 1)
                rom_data.length = true) then
            DumpResult.yAxisBeyond
          else
            DumpResult.view x_num y_num
              ((List.range x_num).map fun i =>
                get_nwidth rom_data (x_axis_start + i * td.x_axis_nwidth) td.x_axis_nwidth)
      else DumpResult.yNumOut
    else DumpResult.xNumOut
  else DumpResult.addrOut

def MAX_TABLE_SEARCHES : Nat := 4000

/-- `mapfinder_needle` (me7_map_scanner.py): the 16-byte 1D map-finder
instruction template. -/
def mapfinder_needle : List Nat :=
  [0xE6, 0xFC, 0, 0, 0xE6, 0xFD, 0, 0, 0xC2, 0xFE, 0, 0, 0xDA, 0, 0, 0]

def mapfinder_mask : List Nat :=
  [255, 255, 0, 0, 255, 255, 0, 0, 255, 255, 0, 0, 255, 0, 0, 0]

/-- The offset enumeration of `find_1d_maps` (me7_map_scanner.py): every loop
iteration that finds a match records it and increments `map_count` (bounded
by `MAX_TABLE_SEARCHES`), and every branch of the loop body — invalid
address, invalid count, truncated table and successful dump alike — sets
`current_offset += len(mapfinder_needle)` before the next search. -/
def find_1d_go (rom needle mask : List Nat) : Nat → Nat → List Nat
  | 0, _ => []
  | fuel+1, cur =>
    match search rom needle mask cur with
    | none => []
    | some addr => addr :: find_1d_go rom needle mask fuel (addr + needle.length)

def find_1d_maps_offsets (rom : List Nat) : List Nat :=
  find_1d_go rom mapfinder_needle mapfinder_mask MAX_TABLE_SEARCHES 0

end Me7Map

namespace Me7RomTool

/-- Inner loop of `find_pattern` (me7romtool.py): a position matches when
every pattern byte with a non-zero mask entry equals the ROM byte. -/
def matchAt (rom pattern mask : List Nat) (pos : Nat) : Bool :=
  (List.range pattern.length).all fun i =>
    (mask.getD i 0 == 0) || (pattern.getD i 0 == rom.getD (pos + i) 0)

/-- The `find_pattern` scan loop (me7romtool.py) over the remaining `k`
positions starting at `pos`: a match is appended; when `debug` is false the
loop breaks after the first match. -/
def fp_loop (p : Nat → Bool) (debug : Bool) : Nat → Nat → List Nat
  | _, 0 => []
  | pos, k+1 =>
    if p pos then
      if debug then pos :: fp_loop p debug (pos+1) k else [pos]
    else fp_loop p debug (pos+1) k

/-- `find_pattern` (me7romtool.py): returns `[]` for an unloaded/empty ROM,
scans `range(rom_size - pattern_len + 1)` (an empty range when the pattern
is longer than the ROM), collects matching offsets, and stops after the
first match unless `debug` is set. -/
def find_pattern (rom pattern mask : List Nat) (debug : Bool) : List Nat :=
  if rom.isEmpty then []
  else if rom.length < pattern.length then []
  else fp_loop (matchAt rom pattern mask) debug 0 (rom.length - pattern.length + 1)

end Me7RomTool

namespace Ferrari

/-- `has_reasonable_values` (me7_ferrari_scanner.py), over exact rationals:
rejects an empty list, a zero-variance list (`max(values) == min(values)`),
an all-zero list, and a list in which every absolute value exceeds 10000.
The NaN/infinity filter in the source keeps every element here
(`float('nan') == v` is always false in Python, and ℚ has no infinities),
so it is the identity. -/
def has_reasonable_values (values : List ℚ) : Bool :=
  match values with
  | [] => false
  | v :: vs =>
    let mx := vs.foldl max v
    let mn := vs.foldl min v
    if mx = mn then false
    else if (v :: vs).all fun x => decide (x = 0) then false
    else if (v :: vs).all fun x => decide (10000 < |x|) then false
    else true

end Ferrari

/-- Modelled from the spec (for comparison with the code only): the contract
`translate(dpp, offset16, romSizeBytes)` choosing the bank mask from ROM
capacity — 1,048,576 bytes means mask 0x100000, any other size means mask
0xF00000 — and clearing it from `dpp * 0x4000 + offset16`.  No function of
the repository takes the ROM size as an input to address translation. -/
def translate_spec (dpp offset16 romSizeBytes : Nat) : Nat :=
  (dpp * 0x4000 + offset16) &&&
    (if romSizeBytes = 1048576 then 0xFFEFFFFF else 0xFF0FFFFF)

/-- Modelled from the spec (for comparison with the code only): `searchAll`
as the spec words it — repeatedly call `search` with
`startOffset = previousMatch + 1`. -/
def searchAll_go (rom needle mask : List Nat) : Nat → Nat → List Nat
  | 0, _ => []
  | fuel+1, cur =>
    match Me7Map.search rom needle mask cur with
    | none => []
    | some a => a :: searchAll_go rom needle mask fuel (a + 1)

/-- Modelled from the spec: the offsets of `searchAll` started at offset 0
(the fuel `rom.length + 1` can never be exhausted, since matches strictly
increase and stay below the buffer length). -/
def searchAll_spec (rom needle mask : List Nat) : List Nat :=
  searchAll_go rom needle mask (rom.length + 1) 0

/-- The spec scenario buffer: 16 zero bytes, then the DPP setup instruction
bytes `E6 00 05 02 E6 01 05 02 E6 02 E0 00 E6 03 03 00`. -/
def dpp_scenario_buf32 : List Nat :=
  List.replicate 16 0 ++
    [0xE6, 0x00, 0x05, 0x02, 0xE6, 0x01, 0x05, 0x02,
     0xE6, 0x02, 0xE0, 0x00, 0xE6, 0x03, 0x03, 0x00]

/-- The scenario buffer extended by one byte, so the DPP match at offset 16
is no longer at the (excluded) final alignment. -/
def dpp_scenario_buf33 : List Nat := dpp_scenario_buf32 ++ [0]

/-- A 19-byte buffer in which `mapfinder_needle` matches (under
`mapfinder_mask`) at offsets 0 and 2, and at no other scanned position. -/
def overlap_buf19 : List Nat :=
  [0xE6, 0xFC, 0xE6, 0xFC, 0xE6, 0xFD, 0xE6, 0xFD,
   0xC2, 0xFE, 0xC2, 0xFE, 0xDA, 0x00, 0xDA, 0x00, 0, 0, 0]

/-- A 22-byte buffer whose first byte (the x-count read by `dump_table`) is
51, above the sanity ceiling. -/
def oversize_count_buf22 : List Nat :=
  [51, 1, 2, 3, 4, 5, 6, 7, 8, 9, 10, 11, 12, 13, 14, 15, 16, 17, 18, 19, 20, 21]

theorem scanFrom_eq_some_iff (p : Nat → Bool) :
    ∀ (k start i : Nat), (scanFrom p start k = some i ↔
      (start ≤ i ∧ i < start + k ∧ p i = true ∧ ∀ j, start ≤ j → j < i → p j = false)) := by
  intro k
  induction k with
  | zero =>
    intro start i
    simp only [scanFrom]
    constructor
    · intro h; cases h
    · rintro ⟨h1, h2, _⟩; omega
  | succ k ih =>
    intro start i
    simp only [scanFrom]
    by_cases h : p start
    · rw [if_pos h]
      constructor
      · rintro ⟨rfl⟩
        refine ⟨le_refl _, by omega, h, ?_⟩
        intro j hj1 hj2; omega
      · rintro ⟨h1, _, hp, hmin⟩
        by_cases hi : i = start
        · simp [hi]
        · exact absurd h (by simpa using hmin start (le_refl _) (by omega))
    · rw [if_neg h]
      rw [ih (start+1) i]
      constructor
      · rintro ⟨h1, h2, hp, hmin⟩
        refine ⟨by omega, by omega, hp, ?_⟩
        intro j hj1 hj2
        by_cases hj : j = start
        · subst hj; simpa using h
        · exact hmin j (by omega) hj2
      · rintro ⟨h1, h2, hp, hmin⟩
        have hi : i ≠ start := by
          rintro rfl; exact h hp
        exact ⟨by omega, by omega, hp, fun j hj1 hj2 => hmin j (by omega) hj2⟩

theorem scanFrom_eq_none_iff (p : Nat → Bool) :
    ∀ (k start : Nat), (scanFrom p start k = none ↔
      ∀ j, start ≤ j → j < start + k → p j = false) := by
  intro k
  induction k with
  | zero =>
    intro start
    simp only [scanFrom]
    constructor
    · intro _ j h1 h2; omega
    · intro _; trivial
  | succ k ih =>
    intro start
    simp only [scanFrom]
    by_cases h : p start
    · rw [if_pos h]
      constructor
      · intro hc; cases hc
      · intro hall
        exact absurd h (by simpa using hall start (le_refl _) (by omega))
    · rw [if_neg h]
      rw [ih (start+1)]
      constructor
      · intro hall j hj1 hj2
        by_cases hj : j = start
        · subst hj; simpa using h
        · exact hall j (by omega) (by omega)
      · intro hall j hj1 hj2
        exact hall j (by omega) (by omega)

theorem getD_lt_256 (l : List Nat) (h : ∀ b ∈ l, b < 256) (i : Nat) : l.getD i 0 < 256 := by
  by_cases hi : i < l.length
  · rw [List.getD_eq_getElem l 0 hi]
    exact h _ (List.getElem_mem hi)
  · rw [List.getD_eq_default l 0 (by omega)]
    omega

theorem and255_eq_self (x : Nat) (h : x < 256) : x &&& 255 = x := by
  have h2 := Nat.and_pow_two_sub_one_eq_mod x 8
  norm_num at h2
  rw [h2, Nat.mod_eq_of_lt h]

theorem rs_matchAt_iff_sigMatch (data needle mask : List Nat) (i : Nat) :
    RomScanner.matchAt data needle mask i = true ↔ sigMatch data needle mask i := by
  simp only [RomScanner.matchAt, List.all_eq_true, List.mem_range, sigMatch, Bool.or_eq_true,
    Bool.not_eq_eq_eq_not, Bool.not_true, beq_eq_false_iff_ne, ne_eq, beq_iff_eq]
  constructor
  · intro h j hj hm
    rcases h j hj with h1 | h1
    · exact absurd hm h1
    · exact h1
  · intro h j hj
    by_cases hm : mask.getD j 0 = 255
    · exact Or.inr (h j hj hm)
    · exact Or.inl hm

theorem rs_search_pattern_eq_some_iff (data needle mask : List Nat) (start i : Nat) :
    RomScanner.search_pattern data needle mask start = some i ↔
      (start ≤ i ∧ i + needle.length < data.length ∧ sigMatch data needle mask i ∧
        ∀ j, start ≤ j → j < i → ¬ sigMatch data needle mask j) := by
  rw [RomScanner.search_pattern, scanFrom_eq_some_iff]
  constructor
  · rintro ⟨h1, h2, hp, hmin⟩
    refine ⟨h1, by omega, (rs_matchAt_iff_sigMatch data needle mask i).mp hp, ?_⟩
    intro j hj1 hj2 hs
    have hf := hmin j hj1 hj2
    rw [(rs_matchAt_iff_sigMatch data needle mask j).mpr hs] at hf
    cases hf
  · rintro ⟨h1, h2, hs, hmin⟩
    refine ⟨h1, by omega, (rs_matchAt_iff_sigMatch data needle mask i).mpr hs, ?_⟩
    intro j hj1 hj2
    cases hmj : RomScanner.matchAt data needle mask j
    · rfl
    · exact absurd ((rs_matchAt_iff_sigMatch data needle mask j).mp hmj) (hmin j hj1 hj2)

theorem me7_matchAt_iff_sigMatch (data needle mask : List Nat) (i : Nat)
    (hlen : needle.length = mask.length)
    (hmask : ∀ b ∈ mask, b = 0 ∨ b = 255)
    (hdata : ∀ b ∈ data, b < 256)
    (hneedle : ∀ b ∈ needle, b < 256) :
    Me7Map.matchAt data needle mask i = true ↔ sigMatch data needle mask i := by
  simp only [Me7Map.matchAt, List.all_eq_true, List.mem_range, sigMatch, Bool.or_eq_true,
    beq_iff_eq]
  constructor
  · intro h j hj hm
    rcases h j hj with h1 | h1
    · rw [hm] at h1; cases h1
    · rw [hm, and255_eq_self _ (getD_lt_256 data hdata _),
        and255_eq_self _ (getD_lt_256 needle hneedle _)] at h1
      exact h1.symm
  · intro h j hj
    have hjm : j < mask.length := by omega
    have hmem : mask.getD j 0 ∈ mask := by
      rw [List.getD_eq_getElem mask 0 hjm]
      exact List.getElem_mem hjm
    rcases hmask _ hmem with h0 | h255
    · exact Or.inl h0
    · right
      rw [h255, and255_eq_self _ (getD_lt_256 data hdata _),
        and255_eq_self _ (getD_lt_256 needle hneedle _)]
      exact (h j hj h255).symm

theorem me7_search_eq_some_iff (data needle mask : List Nat) (start i : Nat)
    (hlen : needle.length = mask.length)
    (hmask : ∀ b ∈ mask, b = 0 ∨ b = 255)
    (hdata : ∀ b ∈ data, b < 256)
    (hneedle : ∀ b ∈ needle, b < 256) :
    Me7Map.search data needle mask start = some i ↔
      (start ≤ i ∧ i + needle.length < data.length ∧ sigMatch data needle mask i ∧
        ∀ j, start ≤ j → j < i → ¬ sigMatch data needle mask j) := by
  unfold Me7Map.search
  by_cases hg : data.length - needle.length ≤ start
  · rw [if_pos hg]
    constructor
    · intro h; cases h
    · rintro ⟨h1, h2, _⟩; omega
  · rw [if_neg hg, scanFrom_eq_some_iff]
    constructor
    · rintro ⟨h1, h2, hp, hmin⟩
      refine ⟨h1, by omega,
        (me7_matchAt_iff_sigMatch data needle mask i hlen hmask hdata hneedle).mp hp, ?_⟩
      intro j hj1 hj2 hs
      have hf := hmin j hj1 hj2
      rw [(me7_matchAt_iff_sigMatch data needle mask j hlen hmask hdata hneedle).mpr hs] at hf
      cases hf
    · rintro ⟨h1, h2, hs, hmin⟩
      refine ⟨h1, by omega,
        (me7_matchAt_iff_sigMatch data needle mask i hlen hmask hdata hneedle).mpr hs, ?_⟩
      intro j hj1 hj2
      cases hmj : Me7Map.matchAt data needle mask j
      · rfl
      · exact absurd
          ((me7_matchAt_iff_sigMatch data needle mask j hlen hmask hdata hneedle).mp hmj)
          (hmin j hj1 hj2)

theorem testBit_false_of_lt_2_32 (x : Nat) (hx : x < 4294967296) (i : Nat) (hi : 32 ≤ i) :
    x.testBit i = false := by
  refine Nat.testBit_eq_false_of_lt (lt_of_lt_of_le hx ?_)
  calc (4294967296 : Nat) = 2 ^ 32 := by norm_num
  _ ≤ 2 ^ i := Nat.pow_le_pow_right (by norm_num) hi

theorem mask_bit_me7 (i : Nat) (h1 : i < 32) (h2 : i ≠ 20) :
    Nat.testBit 0xFFEFFFFF i = true := by
  interval_cases i <;> first | decide | (exact absurd rfl h2)

theorem mask_bit_rs (i : Nat) (h1 : i < 32) (h2 : i < 20 ∨ 23 < i) :
    Nat.testBit 0xFF0FFFFF i = true := by
  interval_cases i <;> first | decide | omega

/-- C1 (amended): each translator computes `phys = dpp * 0x4000 + offset16`
and clears a fixed, tool-specific bank mask, regardless of ROM capacity:
`calc_physical_address` (me7_map_scanner.py) always clears bit 20 (mask
0x100000) and preserves every other bit of `phys`, while the `find_maps`
translation (romscanner.py) always clears bits 20–23 (mask 0xF00000) and
preserves every other bit.  Neither function takes the ROM size as input. -/
theorem C1_fixed_bank_masks (segment offset : Nat)
    (hseg : segment < 65536) (hoff : offset < 65536) :
    (Me7Map.calc_physical_address segment offset).1 = segment * 0x4000 + offset ∧
    ((Me7Map.calc_physical_address segment offset).2.testBit 20 = false ∧
      ∀ i, i ≠ 20 →
        (Me7Map.calc_physical_address segment offset).2.testBit i =
          (segment * 0x4000 + offset).testBit i) ∧
    ((∀ i, 20 ≤ i → i ≤ 23 → (RomScanner.file_offset_of segment offset).testBit i = false) ∧
      ∀ i, i < 20 ∨ 23 < i →
        (RomScanner.file_offset_of segment offset).testBit i =
          (segment * 0x4000 + offset).testBit i) := by
  have hphys : segment * 0x4000 + offset < 4294967296 := by
    have : segment * 0x4000 ≤ 65535 * 0x4000 := by
      exact Nat.mul_le_mul_right _ (by omega)
    omega
  refine ⟨rfl, ⟨?_, ?_⟩, ⟨?_, ?_⟩⟩
  · show ((segment * Me7Map.SEGMENT_SIZE + offset) &&& Me7Map.NOT_ROM_1MB_MASK).testBit 20 = false
    rw [Nat.testBit_land]
    have : Nat.testBit Me7Map.NOT_ROM_1MB_MASK 20 = false := by decide
    rw [this, Bool.and_false]
  · intro i hi
    show ((segment * Me7Map.SEGMENT_SIZE + offset) &&& Me7Map.NOT_ROM_1MB_MASK).testBit i =
      (segment * 0x4000 + offset).testBit i
    rw [Nat.testBit_land]
    by_cases h32 : i < 32
    · rw [show (Me7Map.NOT_ROM_1MB_MASK : Nat) = 0xFFEFFFFF from rfl,
        mask_bit_me7 i h32 hi, Bool.and_true]
      rfl
    · rw [testBit_false_of_lt_2_32 _ hphys i (by omega),
        testBit_false_of_lt_2_32 (Me7Map.NOT_ROM_1MB_MASK) (by decide) i (by omega),
        Bool.and_false]
  · intro i h1 h2
    show ((segment * RomScanner.SEGMENT_SIZE + offset) &&& RomScanner.NOT_ROM_1MB_MASK).testBit i
      = false
    rw [Nat.testBit_land]
    have : Nat.testBit RomScanner.NOT_ROM_1MB_MASK i = false := by
      interval_cases i <;> decide
    rw [this, Bool.and_false]
  · intro i hi
    show ((segment * RomScanner.SEGMENT_SIZE + offset) &&& RomScanner.NOT_ROM_1MB_MASK).testBit i =
      (segment * 0x4000 + offset).testBit i
    rw [Nat.testBit_land]
    by_cases h32 : i < 32
    · rw [show (RomScanner.NOT_ROM_1MB_MASK : Nat) = 0xFF0FFFFF from rfl,
        mask_bit_rs i h32 hi, Bool.and_true]
      rfl
    · rw [testBit_false_of_lt_2_32 _ hphys i (by omega),
        testBit_false_of_lt_2_32 (RomScanner.NOT_ROM_1MB_MASK) (by decide) i (by omega),
        Bool.and_false]

/-- C1 (witness): at segment 0x205, offset 0, bit 20 of the me7_map_scanner
translation is cleared and bit 23 of the romscanner translation is cleared. -/
theorem C1_fixed_bank_masks_witness :
    (Me7Map.calc_physical_address 517 0).2.testBit 20 = false ∧
    (RomScanner.file_offset_of 517 0).testBit 23 = false :=
  ⟨(C1_fixed_bank_masks 517 0 (by decide) (by decide)).2.1.1,
   (C1_fixed_bank_masks 517 0 (by decide) (by decide)).2.2.1 23 (by decide) (by decide)⟩

/-- C1 (counterexample): the claim's capacity-dependent mask choice fails on
the code at dpp 0x205, offset16 0.  For a 524,288-byte ROM the claim requires
mask 0xF00000, producing 0x14000, but `calc_physical_address`
(me7_map_scanner.py) yields 0x814000 whatever the ROM size; for a
1,048,576-byte ROM the claim requires mask 0x100000, producing 0x814000, but
the romscanner translation yields 0x14000 whatever the ROM size. -/
theorem C1_counterexample :
    translate_spec 0x205 0 524288 = 0x14000 ∧
    (Me7Map.calc_physical_address 0x205 0).2 = 0x814000 ∧
    translate_spec 0x205 0 1048576 = 0x814000 ∧
    RomScanner.file_offset_of 0x205 0 = 0x14000 := by
  refine ⟨?_, ?_, ?_, ?_⟩ <;> decide

/-- C2 (counterexample): on the exact 32-byte scenario buffer both search
routines return no match: the needle occurrence starts at offset 16, which is
`len(buffer) - len(needle)`, the first position past the loops' exclusive
upper bound.  Moreover the me7_map_scanner translation of (0x205, 0) gives
0x814000, not the 0x14000 the scenario asserts for its 1-MiB mask. -/
theorem C2_counterexample :
    sigMatch dpp_scenario_buf32 Me7Map.dpp_needle Me7Map.dpp_mask 16 ∧
    Me7Map.search dpp_scenario_buf32 Me7Map.dpp_needle Me7Map.dpp_mask 0 = none ∧
    RomScanner.search_pattern dpp_scenario_buf32 RomScanner.dpp_needle
      RomScanner.dpp_mask 0 = none ∧
    (Me7Map.calc_physical_address 0x205 0).2 = 0x814000 := by
  refine ⟨by decide, by decide, by decide, by decide⟩

/-- C2 (amended): with the scenario bytes followed by at least one more byte
(33-byte buffer), `check_dppx` finds the match at offset 16 and reads
dpp0 = 0x0205, dpp1 = 0x0205, dpp2 = 0x00E0, dpp3 = 0x0003 little-endian at
offsets +2, +6, +10, +14, as does romscanner's `get_dpp_values`; the
romscanner translation (mask 0xF00000) of (dpp = 0x0205, offset16 = 0) is
0x14000, while the me7_map_scanner translation (mask 0x100000) is 0x814000. -/
theorem C2_amended :
    Me7Map.check_dppx dpp_scenario_buf33 =
      Except.ok (16, 0x0205, 0x0205, 0x00E0, 0x0003) ∧
    RomScanner.get_dpp_values dpp_scenario_buf33 =
      (some 0x0205, some 0x0205, some 0x00E0, some 0x0003) ∧
    RomScanner.file_offset_of 0x0205 0 = 0x14000 ∧
    (Me7Map.calc_physical_address 0x0205 0).2 = 0x814000 := by
  refine ⟨by rfl, by decide, by decide, by decide⟩

/-- C4 (counterexample): for the 14-byte buffer ending in `E6 00 AB CD`, the
pattern `E6 00 ?? ??` (mask marking only the first two bytes significant) has
its first — and only — significant-byte match at offset 10, yet both search
routines return `none`, because offset 10 equals
`len(buffer) - len(pattern)`, one past the scan loops' exclusive bound. -/
theorem C4_counterexample :
    sigMatch [0, 0, 0, 0, 0, 0, 0, 0, 0, 0, 0xE6, 0x00, 0xAB, 0xCD]
      [0xE6, 0x00, 0, 0] [255, 255, 0, 0] 10 ∧
    (∀ j, j < 10 → ¬ sigMatch [0, 0, 0, 0, 0, 0, 0, 0, 0, 0, 0xE6, 0x00, 0xAB, 0xCD]
      [0xE6, 0x00, 0, 0] [255, 255, 0, 0] j) ∧
    RomScanner.search_pattern [0, 0, 0, 0, 0, 0, 0, 0, 0, 0, 0xE6, 0x00, 0xAB, 0xCD]
      [0xE6, 0x00, 0, 0] [255, 255, 0, 0] 0 = none ∧
    Me7Map.search [0, 0, 0, 0, 0, 0, 0, 0, 0, 0, 0xE6, 0x00, 0xAB, 0xCD]
      [0xE6, 0x00, 0, 0] [255, 255, 0, 0] 0 = none := by
  refine ⟨by decide, by decide, by decide, by decide⟩

/-- C4 (amended): both search routines return `some i` exactly when `i` is the
smallest offset at or after `startOffset` and strictly before
`bufferLength - patternLength` (the final alignment is excluded, see C9) at
which every significant byte of the pattern equals the buffer byte, wildcard
positions ignored.  The mask-byte and byte-range hypotheses state the Pattern
invariant (per-byte significance flags, byte values 0–255). -/
theorem C4_masked_search_first_match (data needle mask : List Nat) (start i : Nat)
    (hlen : needle.length = mask.length)
    (hmask : ∀ b ∈ mask, b = 0 ∨ b = 255)
    (hdata : ∀ b ∈ data, b < 256)
    (hneedle : ∀ b ∈ needle, b < 256) :
    (RomScanner.search_pattern data needle mask start = some i ↔
      (start ≤ i ∧ i + needle.length < data.length ∧ sigMatch data needle mask i ∧
        ∀ j, start ≤ j → j < i → ¬ sigMatch data needle mask j)) ∧
    (Me7Map.search data needle mask start = some i ↔
      (start ≤ i ∧ i + needle.length < data.length ∧ sigMatch data needle mask i ∧
        ∀ j, start ≤ j → j < i → ¬ sigMatch data needle mask j)) :=
  ⟨rs_search_pattern_eq_some_iff data needle mask start i,
    me7_search_eq_some_iff data needle mask start i hlen hmask hdata hneedle⟩

/-- C4 (witness): on the same bytes with one extra trailing byte (15-byte
buffer) both routines do report the masked match at offset 10. -/
theorem C4_masked_search_first_match_witness :
    RomScanner.search_pattern [0, 0, 0, 0, 0, 0, 0, 0, 0, 0, 0xE6, 0x00, 0xAB, 0xCD, 0]
      [0xE6, 0x00, 0, 0] [255, 255, 0, 0] 0 = some 10 ∧
    Me7Map.search [0, 0, 0, 0, 0, 0, 0, 0, 0, 0, 0xE6, 0x00, 0xAB, 0xCD, 0]
      [0xE6, 0x00, 0, 0] [255, 255, 0, 0] 0 = some 10 :=
  ⟨((C4_masked_search_first_match
      [0, 0, 0, 0, 0, 0, 0, 0, 0, 0, 0xE6, 0x00, 0xAB, 0xCD, 0]
      [0xE6, 0x00, 0, 0] [255, 255, 0, 0] 0 10
      (by decide) (by decide) (by decide) (by decide)).1).mpr (by decide),
   ((C4_masked_search_first_match
      [0, 0, 0, 0, 0, 0, 0, 0, 0, 0, 0xE6, 0x00, 0xAB, 0xCD, 0]
      [0xE6, 0x00, 0, 0] [255, 255, 0, 0] 0 10
      (by decide) (by decide) (by decide) (by decide)).2).mpr (by decide)⟩

/-- C9: neither search routine can return `bufferLength - patternLength`: the
scan loops' exclusive upper bound `len(data) - len(needle)` stops one
alignment short of the last valid starting position, so an occurrence whose
last byte is the final buffer byte is reported as no match. -/
theorem C9_final_alignment_never_returned (data needle mask : List Nat) (start : Nat)
    (hne : data ≠ []) (h1 : 0 < needle.length) (h2 : needle.length ≤ data.length) :
    RomScanner.search_pattern data needle mask start ≠
      some (data.length - needle.length) ∧
    Me7Map.search data needle mask start ≠ some (data.length - needle.length) := by
  constructor
  · intro h
    rw [RomScanner.search_pattern, scanFrom_eq_some_iff] at h
    obtain ⟨ha, hb, _⟩ := h
    omega
  · intro h
    unfold Me7Map.search at h
    by_cases hg : data.length - needle.length ≤ start
    · rw [if_pos hg] at h; cases h
    · rw [if_neg hg, scanFrom_eq_some_iff] at h
      obtain ⟨ha, hb, _⟩ := h
      omega

/-- C9 (witness): the two-byte pattern `E6 00` occurs at offset 0 of the
two-byte buffer `E6 00`, but both routines report no match. -/
theorem C9_final_alignment_never_returned_witness :
    RomScanner.search_pattern [0xE6, 0x00] [0xE6, 0x00] [255, 255] 0 ≠ some 0 ∧
    Me7Map.search [0xE6, 0x00] [0xE6, 0x00] [255, 255] 0 ≠ some 0 :=
  C9_final_alignment_never_returned [0xE6, 0x00] [0xE6, 0x00] [255, 255] 0
    (by decide) (by decide) (by decide)

/-- C7 (counterexample): when the DPP setup needle is absent — here, the empty
buffer — `check_dppx` (me7_map_scanner.py) calls `sys.exit(1)`: pattern
not-found terminates the process rather than being returned non-fatally. -/
theorem C7_counterexample :
    Me7Map.check_dppx [] = Except.error 1 := by
  rfl

/-- C7 (amended): when the DPP setup needle is absent, romscanner's
`get_dpp_values` returns the table with all four slots unset (a warning, not
fatal), but me7_map_scanner's `check_dppx` exits the process with status 1. -/
theorem C7_dpp_not_found_behavior (rom : List Nat)
    (h1 : Me7Map.search rom Me7Map.dpp_needle Me7Map.dpp_mask 0 = none)
    (h2 : RomScanner.search_pattern rom RomScanner.dpp_needle RomScanner.dpp_mask 0 = none) :
    Me7Map.check_dppx rom = Except.error 1 ∧
    RomScanner.get_dpp_values rom = (none, none, none, none) := by
  constructor
  · unfold Me7Map.check_dppx
    rw [h1]
  · unfold RomScanner.get_dpp_values
    rw [h2]

/-- C7 (witness): a three-byte zero buffer has no DPP needle; `check_dppx`
exits with status 1 and `get_dpp_values` returns the unset table. -/
theorem C7_dpp_not_found_behavior_witness :
    Me7Map.check_dppx [0, 0, 0] = Except.error 1 ∧
    RomScanner.get_dpp_values [0, 0, 0] = (none, none, none, none) :=
  C7_dpp_not_found_behavior [0, 0, 0] (by decide) (by decide)

theorem find_1d_go_head (rom needle mask : List Nat) (cur fuel : Nat) (h : 0 < fuel) :
    (Me7Map.find_1d_go rom needle mask fuel cur).head? =
      Me7Map.search rom needle mask cur := by
  cases fuel with
  | zero => omega
  | succ f =>
    cases hs : Me7Map.search rom needle mask cur with
    | none => simp [Me7Map.find_1d_go, hs]
    | some a => simp [Me7Map.find_1d_go, hs]

theorem find_1d_go_chain (rom needle mask : List Nat) :
    ∀ (fuel cur : Nat),
      List.Chain'
        (fun a b => Me7Map.search rom needle mask (a + needle.length) = some b)
        (Me7Map.find_1d_go rom needle mask fuel cur) := by
  intro fuel
  induction fuel with
  | zero =>
    intro cur
    simp [Me7Map.find_1d_go]
  | succ f ih =>
    intro cur
    simp only [Me7Map.find_1d_go]
    cases hs : Me7Map.search rom needle mask cur with
    | none => simp
    | some a =>
      rw [List.chain'_cons']
      refine ⟨?_, ih _⟩
      intro b hb
      cases f with
      | zero => simp [Me7Map.find_1d_go] at hb
      | succ f2 =>
        rw [Option.mem_def,
          find_1d_go_head rom needle mask (a + needle.length) (f2+1) (by omega)] at hb
        exact hb

/-- C3 (counterexample): on a 19-byte buffer in which the 1D map-finder
needle matches at offsets 0 and 2, the spec's `searchAll` (resume at
`previousMatch + 1`) yields `[0, 2]`, but the repository's scan loop
`find_1d_maps` (me7_map_scanner.py) resumes at
`previousMatch + len(needle)` and yields only `[0]`: the overlapping match
at offset 2 is skipped. -/
theorem C3_counterexample :
    searchAll_spec overlap_buf19 Me7Map.mapfinder_needle Me7Map.mapfinder_mask = [0, 2] ∧
    Me7Map.find_1d_maps_offsets overlap_buf19 = [0] := by
  refine ⟨by decide, by decide⟩

/-- C3 (amended): the exhaustive scan of `find_1d_maps` (me7_map_scanner.py)
enumerates the offsets obtained by repeatedly calling `search` with
`startOffset = previousMatch + patternLength` (not `previousMatch + 1`):
its first reported offset is `search(buffer, 0)` and each successive
reported offset is `search(buffer, previous + len(mapfinder_needle))`, so
overlapping matches are skipped; the enumeration is capped at
`MAX_TABLE_SEARCHES` matches. -/
theorem C3_resume_at_match_plus_pattern_length (rom : List Nat) :
    (Me7Map.find_1d_maps_offsets rom).head? =
      Me7Map.search rom Me7Map.mapfinder_needle Me7Map.mapfinder_mask 0 ∧
    List.Chain'
      (fun a b => Me7Map.search rom Me7Map.mapfinder_needle Me7Map.mapfinder_mask
        (a + Me7Map.mapfinder_needle.length) = some b)
      (Me7Map.find_1d_maps_offsets rom) :=
  ⟨find_1d_go_head rom Me7Map.mapfinder_needle Me7Map.mapfinder_mask 0
      Me7Map.MAX_TABLE_SEARCHES (by decide),
   find_1d_go_chain rom Me7Map.mapfinder_needle Me7Map.mapfinder_mask
      Me7Map.MAX_TABLE_SEARCHES 0⟩

theorem getD_map_range {α : Type} (n : Nat) (f : Nat → α) (d : α) (i : Nat) (h : i < n) :
    (((List.range n).map f).getD i d) = f i := by
  rw [List.getD_eq_getElem _ d (by simpa using h)]
  simp

theorem read_w_eq_some (data : List Nat) (offset width : Nat) (hw : width ≠ 0)
    (h : offset + width ≤ data.length) :
    RomScanner.read_w data offset width =
      some ((RomScanner.read_w data offset width).getD 0) := by
  unfold RomScanner.read_w
  by_cases h1 : width = 1
  · rw [if_pos h1, if_pos (by omega)]
    rfl
  · rw [if_neg h1]
    unfold RomScanner.get_word
    rw [if_neg (by omega)]
    rfl

theorem opt_map_indices_eq_some {α : Type} (f : Nat → Option α) (g : Nat → α) :
    ∀ (l : List Nat), (∀ i ∈ l, f i = some (g i)) →
      RomScanner.opt_map_indices f l = some (l.map g) := by
  intro l
  induction l with
  | nil => intro _; rfl
  | cons a rest ih =>
    intro h
    simp only [RomScanner.opt_map_indices]
    rw [h a (List.mem_cons_self a rest), ih (fun i hi => h i (List.mem_cons_of_mem a hi))]
    rfl

theorem opt_map_axis_eq_some (data : List Nat) (start width : Nat) (hw : width ≠ 0)
    (count : Nat) :
    RomScanner.opt_map_indices (fun i =>
      if start + i * width + width ≤ data.length
      then RomScanner.read_w data (start + i * width) width else some 0)
      (List.range count) =
    some ((List.range count).map fun i =>
      if start + i * width + width ≤ data.length
      then (RomScanner.read_w data (start + i * width) width).getD 0 else 0) := by
  apply opt_map_indices_eq_some
  intro i _
  by_cases hg : start + i * width + width ≤ data.length
  · rw [if_pos hg, if_pos hg]
    exact read_w_eq_some data (start + i * width) width hw hg
  · rw [if_neg hg, if_neg hg]

theorem opt_map_cellrow_eq_some (data : List Nat) (cell_start width x_size yy : Nat)
    (hw : width ≠ 0) :
    RomScanner.opt_map_indices (fun x =>
      if cell_start + (yy * x_size + x) * width + width ≤ data.length
      then RomScanner.read_w data (cell_start + (yy * x_size + x) * width) width
      else some 0) (List.range x_size) =
    some ((List.range x_size).map fun x =>
      if cell_start + (yy * x_size + x) * width + width ≤ data.length
      then (RomScanner.read_w data (cell_start + (yy * x_size + x) * width) width).getD 0
      else 0) := by
  apply opt_map_indices_eq_some
  intro x _
  by_cases hg : cell_start + (yy * x_size + x) * width + width ≤ data.length
  · rw [if_pos hg, if_pos hg]
    exact read_w_eq_some data (cell_start + (yy * x_size + x) * width) width hw hg
  · rw [if_neg hg, if_neg hg]

/-- C5 (amended): `extract_map_data` (romscanner.py) rejects a decoded
x-count or y-count above 50 with its "Suspicious dimensions" error dict and
produces no axis or cell data, whenever the two dimension reads are in
bounds and raise no exception; `dump_table` (me7_map_scanner.py) does not
reject such a table — it replaces any count above 50 by 20 and decodes on,
so every view it produces has counts at most 50, and an x-count read above
50 always surfaces as exactly 20. -/
theorem C5_sanity_ceiling :
    (∀ (data : List Nat) (md : RomScanner.MapDef) (offset x y : Nat),
      offset + md.x_num_width ≤ data.length →
      RomScanner.x_size_of data md offset = some x →
      (md.y_num_width = 0 ∨ offset + md.x_num_width + md.y_num_width ≤ data.length) →
      RomScanner.y_size_of data md offset = some y →
      (50 < x ∨ 50 < y) →
      RomScanner.extract_map_data data md offset =
        RomScanner.ExtractResult.suspiciousDims x y) ∧
    (∀ (rom : List Nat) (table_addr segment : Nat) (td : Me7Map.TableDef)
        (x y : Nat) (vals : List Nat),
      Me7Map.dump_table_core rom table_addr segment td = Me7Map.DumpResult.view x y vals →
      (x ≤ 50 ∧ y ≤ 50) ∧
        (50 < Me7Map.get_nwidth rom (Me7Map.calc_physical_address segment table_addr).2
          td.x_num_nwidth → x = 20)) := by
  constructor
  · intro data md offset x y h1 hx h2 hy h3
    unfold RomScanner.extract_map_data
    rw [if_neg (by omega)]
    simp only [hx, hy]
    rw [if_neg (by rintro ⟨ha, hb⟩; rcases h2 with h | h; exact ha h; omega)]
    rw [if_pos h3]
  · intro rom table_addr segment td x y vals h
    unfold Me7Map.dump_table_core at h
    dsimp only at h
    split_ifs at h <;> simp at h <;>
      (obtain ⟨hx, hy, -⟩ := h
       exact ⟨⟨by omega, by omega⟩, fun hc => by omega⟩)

/-- C5 (counterexample): on a 22-byte buffer whose x-count byte is 51 (above
the ceiling), `dump_table` (me7_map_scanner.py) under the default 1D widths
does not reject: it clamps the count to 20 and produces the twenty x-axis
values — axis data is produced despite the out-of-range count. -/
theorem C5_counterexample :
    Me7Map.get_nwidth oversize_count_buf22 0 1 = 51 ∧
    Me7Map.dump_table_core oversize_count_buf22 0 0 Me7Map.XXXXB_table =
      Me7Map.DumpResult.view 20 0
        [1, 2, 3, 4, 5, 6, 7, 8, 9, 10, 11, 12, 13, 14, 15, 16, 17, 18, 19, 20] := by
  refine ⟨by decide, by decide⟩

/-- C5 (witness): a buffer with x-count 51 and y-count 7 is rejected by
`extract_map_data` as suspicious, and the view `dump_table` produces on the
oversize-count buffer keeps both counts at most 50. -/
theorem C5_sanity_ceiling_witness :
    RomScanner.extract_map_data [51, 7] ⟨1, 1, 1, 1, 1⟩ 0 =
      RomScanner.ExtractResult.suspiciousDims 51 7 ∧
    (20 ≤ 50 ∧ 0 ≤ 50) :=
  ⟨C5_sanity_ceiling.1 [51, 7] ⟨1, 1, 1, 1, 1⟩ 0 51 7 (by decide) (by decide)
      (Or.inr (by decide)) (by decide) (Or.inl (by decide)),
   (C5_sanity_ceiling.2 oversize_count_buf22 0 0 Me7Map.XXXXB_table 20 0
      [1, 2, 3, 4, 5, 6, 7, 8, 9, 10, 11, 12, 13, 14, 15, 16, 17, 18, 19, 20]
      (by decide)).1⟩

/-- C6 (amended): only the two dimension reads of `extract_map_data`
(romscanner.py) are bounds-checked with an error result; once the dimensions
read without raising, are in range and are at most 50, and the axis and cell
field widths are non-zero (every catalogue entry uses widths 1 or 2; only a
zero-width field can make a guarded read raise), decoding always returns a
table, and every axis or cell element whose guarded read would exceed the
buffer is silently recorded as 0 ("# Out of range") — no truncation error
is ever produced for them.  Likewise `safe_read` (me7_map_scanner.py)
returns a zero-filled block for any out-of-range read. -/
theorem C6_silent_zero_for_truncated_reads :
    (∀ (data : List Nat) (md : RomScanner.MapDef) (offset x y : Nat),
      offset + md.x_num_width ≤ data.length →
      RomScanner.x_size_of data md offset = some x →
      (md.y_num_width = 0 ∨ offset + md.x_num_width + md.y_num_width ≤ data.length) →
      RomScanner.y_size_of data md offset = some y →
      x ≤ 50 → y ≤ 50 →
      md.x_axis_width ≠ 0 → md.y_axis_width ≠ 0 → md.cell_width ≠ 0 →
      ∃ xs ys cs,
        RomScanner.extract_map_data data md offset =
          RomScanner.ExtractResult.table x y xs ys cs ∧
        ∀ i, i < x →
          data.length < offset + md.x_num_width + md.y_num_width + i * md.x_axis_width +
            md.x_axis_width →
          xs.getD i 1 = 0) ∧
    (∀ (d : List Nat) (off count : Nat), d.length < off + count →
      Me7Map.safe_read d off count = List.replicate count 0) := by
  constructor
  · intro data md offset x y h1 hx h2 hy hx50 hy50 hwx hwy hwc
    unfold RomScanner.extract_map_data
    rw [if_neg (by omega)]
    simp only [hx, hy]
    rw [if_neg (by rintro ⟨ha, hb⟩; rcases h2 with h | h; exact ha h; omega)]
    rw [if_neg (by omega)]
    rw [opt_map_axis_eq_some data (offset + md.x_num_width + md.y_num_width)
      md.x_axis_width hwx x]
    dsimp only
    by_cases hy0 : 0 < y
    · rw [if_pos hy0, if_pos hy0]
      rw [opt_map_axis_eq_some data
        (offset + md.x_num_width + md.y_num_width + x * md.x_axis_width)
        md.y_axis_width hwy y]
      dsimp only
      rw [opt_map_indices_eq_some _
        (fun yy => (List.range x).map fun xx =>
          if offset + md.x_num_width + md.y_num_width + x * md.x_axis_width +
              y * md.y_axis_width + (yy * x + xx) * md.cell_width + md.cell_width ≤
              data.length
          then (RomScanner.read_w data
            (offset + md.x_num_width + md.y_num_width + x * md.x_axis_width +
              y * md.y_axis_width + (yy * x + xx) * md.cell_width) md.cell_width).getD 0
          else 0)
        (List.range y)
        (fun yy _ => opt_map_cellrow_eq_some data
          (offset + md.x_num_width + md.y_num_width + x * md.x_axis_width +
            y * md.y_axis_width) md.cell_width x yy hwc)]
      refine ⟨_, _, _, rfl, ?_⟩
      intro i hi hout
      rw [getD_map_range _ _ _ i hi]
      rw [if_neg (by omega)]
    · rw [if_neg hy0, if_neg hy0]
      dsimp only
      rw [opt_map_axis_eq_some data
        (offset + md.x_num_width + md.y_num_width + x * md.x_axis_width)
        md.cell_width hwc x]
      refine ⟨_, _, _, rfl, ?_⟩
      intro i hi hout
      rw [getD_map_range _ _ _ i hi]
      rw [if_neg (by omega)]
  · intro d off count h
    unfold Me7Map.safe_read
    rw [if_pos h]

/-- C6 (counterexample): on the 3-byte buffer `[2, 1, 5]` with all field
widths 1, `extract_map_data` reads x-count 2 and y-count 1, then runs out of
buffer: it returns a successful table whose second x-axis entry, y-axis
entry and both cells were silently replaced by 0 instead of a truncation
error; and `safe_read` past the end of a 1-byte buffer returns zero bytes. -/
theorem C6_counterexample :
    RomScanner.extract_map_data [2, 1, 5] ⟨1, 1, 1, 1, 1⟩ 0 =
      RomScanner.ExtractResult.table 2 1 [5, 0] [0] [[0, 0]] ∧
    Me7Map.safe_read [9] 5 2 = [0, 0] := by
  refine ⟨by decide, by decide⟩

/-- C6 (witness): the amended statement applied to the `[2, 1, 5]` buffer and
to `safe_read` on a 1-byte buffer. -/
theorem C6_silent_zero_for_truncated_reads_witness :
    (∃ xs ys cs,
      RomScanner.extract_map_data [2, 1, 5] ⟨1, 1, 1, 1, 1⟩ 0 =
        RomScanner.ExtractResult.table 2 1 xs ys cs ∧
      ∀ i, i < 2 → (3 : Nat) < 0 + 1 + 1 + i * 1 + 1 → xs.getD i 1 = 0) ∧
    Me7Map.safe_read [9] 5 2 = List.replicate 2 0 :=
  ⟨C6_silent_zero_for_truncated_reads.1 [2, 1, 5] ⟨1, 1, 1, 1, 1⟩ 0 2 1 (by decide)
      (by decide) (Or.inr (by decide)) (by decide) (by decide) (by decide)
      (by decide) (by decide) (by decide),
   C6_silent_zero_for_truncated_reads.2 [9] 5 2 (by decide)⟩

theorem foldl_max_init_le : ∀ (vs : List ℚ) (v : ℚ), v ≤ vs.foldl max v := by
  intro vs
  induction vs with
  | nil => intro v; exact le_refl v
  | cons x xs ih =>
    intro v
    exact le_trans (le_max_left v x) (ih (max v x))

theorem foldl_max_le_of_mem : ∀ (vs : List ℚ) (v w : ℚ), w ∈ vs → w ≤ vs.foldl max v := by
  intro vs
  induction vs with
  | nil => intro v w hw; cases hw
  | cons x xs ih =>
    intro v w hw
    rcases List.mem_cons.mp hw with rfl | hw
    · exact le_trans (le_max_right v w) (foldl_max_init_le xs (max v w))
    · exact ih (max v x) w hw

theorem le_foldl_max_of_mem_cons (vs : List ℚ) (v w : ℚ) (hw : w ∈ v :: vs) :
    w ≤ vs.foldl max v := by
  rcases List.mem_cons.mp hw with rfl | hw
  · exact foldl_max_init_le vs w
  · exact foldl_max_le_of_mem vs v w hw

theorem foldl_max_mem : ∀ (vs : List ℚ) (v : ℚ), vs.foldl max v ∈ v :: vs := by
  intro vs
  induction vs with
  | nil => intro v; simp
  | cons x xs ih =>
    intro v
    have h := ih (max v x)
    rcases List.mem_cons.mp h with h1 | h1
    · rcases max_choice v x with h2 | h2
      · simp only [List.foldl_cons]
        rw [h1, h2]
        simp
      · simp only [List.foldl_cons]
        rw [h1, h2]
        simp
    · simp only [List.foldl_cons]
      exact List.mem_cons_of_mem _ (List.mem_cons_of_mem _ h1)

theorem foldl_min_le_init : ∀ (vs : List ℚ) (v : ℚ), vs.foldl min v ≤ v := by
  intro vs
  induction vs with
  | nil => intro v; exact le_refl v
  | cons x xs ih =>
    intro v
    exact le_trans (ih (min v x)) (min_le_left v x)

theorem foldl_min_le_of_mem : ∀ (vs : List ℚ) (v w : ℚ), w ∈ vs → vs.foldl min v ≤ w := by
  intro vs
  induction vs with
  | nil => intro v w hw; cases hw
  | cons x xs ih =>
    intro v w hw
    rcases List.mem_cons.mp hw with rfl | hw
    · exact le_trans (foldl_min_le_init xs (min v w)) (min_le_right v w)
    · exact ih (min v x) w hw

theorem foldl_min_le_of_mem_cons (vs : List ℚ) (v w : ℚ) (hw : w ∈ v :: vs) :
    vs.foldl min v ≤ w := by
  rcases List.mem_cons.mp hw with rfl | hw
  · exact foldl_min_le_init vs w
  · exact foldl_min_le_of_mem vs v w hw

theorem foldl_min_mem : ∀ (vs : List ℚ) (v : ℚ), vs.foldl min v ∈ v :: vs := by
  intro vs
  induction vs with
  | nil => intro v; simp
  | cons x xs ih =>
    intro v
    have h := ih (min v x)
    rcases List.mem_cons.mp h with h1 | h1
    · rcases min_choice v x with h2 | h2
      · simp only [List.foldl_cons]
        rw [h1, h2]
        simp
      · simp only [List.foldl_cons]
        rw [h1, h2]
        simp
    · simp only [List.foldl_cons]
      exact List.mem_cons_of_mem _ (List.mem_cons_of_mem _ h1)

/-- C8: `has_reasonable_values` (me7_ferrari_scanner.py) returns false
exactly when the value list is empty, or every value is identical
(zero variance), or every value equals zero, or every value's absolute
magnitude exceeds 10000; otherwise it returns true. -/
theorem C8_rejection_rule (values : List ℚ) :
    Ferrari.has_reasonable_values values = false ↔
      (values = [] ∨ (∀ v ∈ values, ∀ w ∈ values, v = w) ∨ (∀ v ∈ values, v = 0) ∨
        ∀ v ∈ values, 10000 < |v|) := by
  cases values with
  | nil => simp [Ferrari.has_reasonable_values]
  | cons v vs =>
    simp only [Ferrari.has_reasonable_values]
    split_ifs with h1 h2 h3
    · constructor
      · intro _
        refine Or.inr (Or.inl ?_)
        intro a ha b hb
        have ha1 := le_foldl_max_of_mem_cons vs v a ha
        have ha2 := foldl_min_le_of_mem_cons vs v a ha
        have hb1 := le_foldl_max_of_mem_cons vs v b hb
        have hb2 := foldl_min_le_of_mem_cons vs v b hb
        rw [h1] at ha1 hb1
        rw [le_antisymm ha1 ha2, le_antisymm hb1 hb2]
      · intro _; rfl
    · constructor
      · intro _
        refine Or.inr (Or.inr (Or.inl ?_))
        simpa only [List.all_eq_true, decide_eq_true_eq] using h2
      · intro _; rfl
    · constructor
      · intro _
        refine Or.inr (Or.inr (Or.inr ?_))
        simpa only [List.all_eq_true, decide_eq_true_eq] using h3
      · intro _; rfl
    · constructor
      · intro hc
        exact absurd hc (by simp)
      · intro hrhs
        rcases hrhs with hnil | hall | hzero | habs
        · cases hnil
        · exact absurd (hall _ (foldl_max_mem vs v) _ (foldl_min_mem vs v)) h1
        · refine absurd ?_ h2
          simp only [List.all_eq_true, decide_eq_true_eq]
          exact hzero
        · refine absurd ?_ h3
          simp only [List.all_eq_true, decide_eq_true_eq]
          exact habs

theorem fp_loop_succ_of_match (p : Nat → Bool) (debug : Bool) (pos k : Nat)
    (hp : p pos = true) :
    Me7RomTool.fp_loop p debug pos (k+1) =
      if debug then pos :: Me7RomTool.fp_loop p debug (pos+1) k else [pos] := by
  conv_lhs => rw [Me7RomTool.fp_loop]
  rw [if_pos hp]

theorem fp_loop_succ_of_no_match (p : Nat → Bool) (debug : Bool) (pos k : Nat)
    (hp : p pos = false) :
    Me7RomTool.fp_loop p debug pos (k+1) = Me7RomTool.fp_loop p debug (pos+1) k := by
  conv_lhs => rw [Me7RomTool.fp_loop]
  rw [if_neg (by simp [hp])]

theorem fp_loop_false_length (p : Nat → Bool) :
    ∀ (k pos : Nat), (Me7RomTool.fp_loop p false pos k).length ≤ 1 := by
  intro k
  induction k with
  | zero => intro pos; simp [Me7RomTool.fp_loop]
  | succ k ih =>
    intro pos
    cases hp : p pos
    · rw [fp_loop_succ_of_no_match p false pos k hp]
      exact ih (pos+1)
    · rw [fp_loop_succ_of_match p false pos k hp]
      simp

theorem fp_loop_false_mem (p : Nat → Bool) :
    ∀ (k pos i : Nat), i ∈ Me7RomTool.fp_loop p false pos k →
      (p i = true ∧ pos ≤ i ∧ ∀ j, pos ≤ j → j < i → p j = false) := by
  intro k
  induction k with
  | zero => intro pos i hi; cases hi
  | succ k ih =>
    intro pos i hi
    cases hp : p pos
    · rw [fp_loop_succ_of_no_match p false pos k hp] at hi
      obtain ⟨h1, h2, h3⟩ := ih (pos+1) i hi
      refine ⟨h1, by omega, fun j hj1 hj2 => ?_⟩
      by_cases hj : j = pos
      · subst hj; exact hp
      · exact h3 j (by omega) hj2
    · rw [fp_loop_succ_of_match p false pos k hp] at hi
      simp only [Bool.false_eq_true, if_false, List.mem_singleton] at hi
      subst hi
      exact ⟨hp, le_refl _, fun j hj1 hj2 => by omega⟩

theorem mem_fp_loop_true (p : Nat → Bool) :
    ∀ (k pos i : Nat), i ∈ Me7RomTool.fp_loop p true pos k ↔
      (pos ≤ i ∧ i < pos + k ∧ p i = true) := by
  intro k
  induction k with
  | zero =>
    intro pos i
    simp only [Me7RomTool.fp_loop, List.not_mem_nil, false_iff]
    rintro ⟨h1, h2, _⟩
    omega
  | succ k ih =>
    intro pos i
    cases hp : p pos
    · rw [fp_loop_succ_of_no_match p true pos k hp, ih (pos+1) i]
      constructor
      · rintro ⟨h1, h2, h3⟩
        exact ⟨by omega, by omega, h3⟩
      · rintro ⟨h1, h2, h3⟩
        have hi : i ≠ pos := by
          rintro rfl
          rw [hp] at h3
          cases h3
        exact ⟨by omega, by omega, h3⟩
    · rw [fp_loop_succ_of_match p true pos k hp, if_pos rfl]
      rw [List.mem_cons, ih (pos+1) i]
      constructor
      · rintro (rfl | ⟨h1, h2, h3⟩)
        · exact ⟨le_refl _, by omega, hp⟩
        · exact ⟨by omega, by omega, h3⟩
      · rintro ⟨h1, h2, h3⟩
        by_cases hi : i = pos
        · exact Or.inl hi
        · exact Or.inr ⟨by omega, by omega, h3⟩

theorem fp_loop_true_pairwise (p : Nat → Bool) :
    ∀ (k pos : Nat), List.Pairwise (· < ·) (Me7RomTool.fp_loop p true pos k) := by
  intro k
  induction k with
  | zero => intro pos; simp [Me7RomTool.fp_loop]
  | succ k ih =>
    intro pos
    cases hp : p pos
    · rw [fp_loop_succ_of_no_match p true pos k hp]
      exact ih (pos+1)
    · rw [fp_loop_succ_of_match p true pos k hp, if_pos rfl]
      refine List.Pairwise.cons ?_ (ih (pos+1))
      intro b hb
      have := (mem_fp_loop_true p k (pos+1) b).mp hb
      omega

/-- C10: `find_pattern` (me7romtool.py) with `debug = False` returns at most
one offset — only the smallest matching one — while with `debug = True` it
returns every matching offset of the scanned range, in strictly increasing
order: the set of reported matches depends on the debug flag, not only on
the buffer and pattern. -/
theorem C10_debug_flag_changes_matches (rom pattern mask : List Nat)
    (hrom : rom ≠ []) (hlen : pattern.length = mask.length) :
    ((Me7RomTool.find_pattern rom pattern mask false).length ≤ 1 ∧
      ∀ i ∈ Me7RomTool.find_pattern rom pattern mask false,
        Me7RomTool.matchAt rom pattern mask i = true ∧
          ∀ j, j < i → Me7RomTool.matchAt rom pattern mask j = false) ∧
    (List.Pairwise (· < ·) (Me7RomTool.find_pattern rom pattern mask true) ∧
      ∀ i, i ∈ Me7RomTool.find_pattern rom pattern mask true ↔
        (i + pattern.length ≤ rom.length ∧
          Me7RomTool.matchAt rom pattern mask i = true)) := by
  have hemp : rom.isEmpty = false := by
    cases rom
    · exact absurd rfl hrom
    · rfl
  unfold Me7RomTool.find_pattern
  split_ifs with h1 hshort
  · exact absurd h1 (by simp [hemp])
  · refine ⟨⟨by simp, by simp⟩, ⟨by simp, ?_⟩⟩
    intro i
    simp only [List.not_mem_nil, false_iff]
    rintro ⟨hc, _⟩
    omega
  · refine ⟨⟨fp_loop_false_length _ _ _, ?_⟩, ⟨fp_loop_true_pairwise _ _ _, ?_⟩⟩
    · intro i hi
      obtain ⟨h1, h2, h3⟩ := fp_loop_false_mem _ _ _ i hi
      exact ⟨h1, fun j hj => h3 j (by omega) hj⟩
    · intro i
      rw [mem_fp_loop_true]
      constructor
      · rintro ⟨h1, h2, h3⟩
        exact ⟨by omega, h3⟩
      · rintro ⟨h1, h2⟩
        exact ⟨by omega, by omega, h2⟩

/-- C10 (witness): on a 3-byte ROM with the 1-byte pattern `AA` matching at
offsets 0 and 2, the debug-off call reports at most one offset while the
debug-on membership rule reports offset 2 as well. -/
theorem C10_debug_flag_changes_matches_witness :
    (Me7RomTool.find_pattern [0xAA, 0xBB, 0xAA] [0xAA] [255] false).length ≤ 1 ∧
    (2 ∈ Me7RomTool.find_pattern [0xAA, 0xBB, 0xAA] [0xAA] [255] true ↔
      (2 + 1 ≤ 3 ∧ Me7RomTool.matchAt [0xAA, 0xBB, 0xAA] [0xAA] [255] 2 = true)) :=
  ⟨(C10_debug_flag_changes_matches [0xAA, 0xBB, 0xAA] [0xAA] [255] (by decide)
      (by decide)).1.1,
   (C10_debug_flag_changes_matches [0xAA, 0xBB, 0xAA] [0xAA] [255] (by decide)
      (by decide)).2.2 2⟩
